import Mathlib

/-!
Verification of the Address Resolution Pipeline of the volterra-asset-map
repository: a shallow embedding in Lean 4 of the name normalizer, similarity
scorer, candidate matcher (scripts/sync-hubspot.ts), the geocoding resolver
(the batch geocoding script), and the Supabase RPC functions they call
(supabase/migrations/*.sql), together with proofs and refutations of the
specified properties.

Strings are modelled as `List Char`.  JavaScript regular-expression calls in
the source are end-anchored, so each `replace` is modelled as removing the
suffix that starts at the leftmost position where the pattern can match.
JavaScript case-insensitive matching is modelled by a case-folding function
that covers ASCII plus the Scandinavian letters appearing in the pattern
tables.  Rational numbers stand for JavaScript numbers (all numeric literals
in the relevant code are exactly representable).
-/

namespace AssetMap

/-- Case folding used for the case-insensitive regex flags: ASCII `toLower`
extended with the non-ASCII letters that occur in the pattern tables. -/
def lowerChar (c : Char) : Char :=
  if c = 'Ä' then 'ä'
  else if c = 'Ö' then 'ö'
  else if c = 'Å' then 'å'
  else if c = 'Ø' then 'ø'
  else if c = 'Æ' then 'æ'
  else if c = 'É' then 'é'
  else if c = 'Ü' then 'ü'
  else c.toLower

/-- Case-insensitive "p is a leading segment of s" test. -/
def ciIsPrefixOf : List Char → List Char → Bool
  | [], _ => true
  | _ :: _, [] => false
  | p :: ps, c :: cs => (lowerChar p == lowerChar c) && ciIsPrefixOf ps cs

/-- Whitespace test standing for the regex class `\s` (the characters that
occur in the data are covered). -/
def isWS (c : Char) : Bool := c.isWhitespace

/-- JavaScript `String.prototype.trim`. -/
def trimWs (s : List Char) : List Char :=
  ((s.dropWhile isWS).reverse.dropWhile isWS).reverse

/-- Effect of `normalized.replace(new RegExp("^" + p + "\\s+", "i"), "")`:
when the string starts with `p` (case-insensitively) followed by at least one
whitespace character, the affix and the whole whitespace run are removed. -/
def stripHeadAffix (p s : List Char) : List Char :=
  if ciIsPrefixOf p s then
    match s.drop p.length with
    | c :: rest => if isWS c then (c :: rest).dropWhile isWS else s
    | [] => s
  else s

/-- Effect of `normalized.replace(new RegExp("\\s+" + p + "$", "i"), "")`:
when the string ends with `p` (case-insensitively) preceded by at least one
whitespace character, the affix and the whole whitespace run are removed. -/
def stripTailAffix (p s : List Char) : List Char :=
  if ciIsPrefixOf p.reverse s.reverse then
    match s.reverse.drop p.length with
    | c :: rest => if isWS c then ((c :: rest).dropWhile isWS).reverse else s
    | [] => s
  else s

/-- Removal of an end-anchored regex match: the suffix starting at the
leftmost position where `can` holds is deleted (the source patterns all end
in `$`, so a match always extends to the end of the string). -/
def chopFrom (can : List Char → Bool) : List Char → List Char
  | [] => []
  | c :: cs => if can (c :: cs) then [] else c :: chopFrom can cs

/-- Consumption of `\s+` at the head of `t`: `some u` holds the remainder
after the maximal whitespace run when the run is nonempty (all alternatives
matched next in the source patterns start with non-whitespace characters, so
the greedy run is the only viable one). -/
def afterWsPlus (t : List Char) : Option (List Char) :=
  match t with
  | c :: rest => if isWS c then some ((c :: rest).dropWhile isWS) else none
  | [] => none

/-- Test that `u` is one of `alts` (case-insensitively) followed only by
whitespace, i.e. the tail `(alt1|alt2|...)\s*$` of a pattern. -/
def altEndsWs (alts : List (List Char)) (u : List Char) : Bool :=
  alts.any (fun a => ciIsPrefixOf a u && (u.drop a.length).all isWS)

def romanAlts : List (List Char) :=
  ["I", "II", "III", "IV", "V", "1", "2", "3", "4", "5"].map String.data

/-- Match test for `/\s+(I|II|III|IV|V|1|2|3|4|5)\s*$/i` at the head of `t`. -/
def canRoman (t : List Char) : Bool :=
  match afterWsPlus t with
  | some u => altEndsWs romanAlts u
  | none => false

def vendorAlts : List (List Char) :=
  ["Zaptec", "Easee", "laddboxar", "all"].map String.data

/-- Match test for `/\s*-\s*(Zaptec|Easee|laddboxar|all).*$/i` at the head of
`t`; `.*` cannot cross a line terminator. -/
def canVendor (t : List Char) : Bool :=
  match t.dropWhile isWS with
  | '-' :: t2 =>
    vendorAlts.any (fun a =>
      ciIsPrefixOf a (t2.dropWhile isWS) &&
      (((t2.dropWhile isWS).drop a.length).all (fun c => !(c == '\n') && !(c == '\r'))))
  | _ => false

/-- Match test for `/\s*-\s*all\s*$/i` at the head of `t`. -/
def canDashAll (t : List Char) : Bool :=
  match t.dropWhile isWS with
  | '-' :: t2 =>
    ciIsPrefixOf "all".data (t2.dropWhile isWS) &&
    ((t2.dropWhile isWS).drop 3).all isWS
  | _ => false

/-- Match test for `/\s+A\/L\s*$/i` at the head of `t`. -/
def canAL (t : List Char) : Bool :=
  match afterWsPlus t with
  | some u => ciIsPrefixOf "A/L".data u && (u.drop 3).all isWS
  | none => false

/-- Match test for `/\s+\(fellesplass\)\s*$/i` at the head of `t`. -/
def canFell (t : List Char) : Bool :=
  match afterWsPlus t with
  | some u => ciIsPrefixOf "(fellesplass)".data u && (u.drop 13).all isWS
  | none => false

def cityAlts : List (List Char) :=
  ["Stockholm", "Göteborg", "Uppsala", "Malmö", "Örebro", "Sundbyberg",
   "Sköndal", "Lund", "Karlstad", "Linköping", "Bromma", "Årsta",
   "Vaxholm"].map String.data

/-- Match test for `/\s+i\s+(Stockholm|...|Vaxholm)\s*$/i` at the head of
`t`. -/
def canCity (t : List Char) : Bool :=
  match afterWsPlus t with
  | some (c0 :: v) =>
    (lowerChar c0 == 'i') &&
    (match afterWsPlus v with
     | some w => altEndsWs cityAlts w
     | none => false)
  | _ => false

/-- Punctuation class `[,.:;!?]` of the global punctuation-removal replace. -/
def isPunct (c : Char) : Bool :=
  c == ',' || c == '.' || c == ':' || c == ';' || c == '!' || c == '?'

/-- Effect of the global replace `/\s+/g → " "`: every maximal whitespace run
becomes a single space. -/
def collapseWs : List Char → List Char
  | [] => []
  | [c] => if isWS c then [' '] else [c]
  | c1 :: c2 :: cs =>
    if isWS c1 && isWS c2 then collapseWs (c2 :: cs)
    else (if isWS c1 then ' ' else c1) :: collapseWs (c2 :: cs)

/-- Per-country affix tables (`HOUSING_PATTERNS` in scripts/sync-hubspot.ts). -/
structure AffixRules where
  pres : List (List Char)
  sufs : List (List Char)

def norwayRules : AffixRules :=
  { pres := ["Sameiet", "Borettslaget", "Boligsameiet", "AL", "AS",
             "Andelslaget"].map String.data
    sufs := ["Borettslag", "Sameie", "Boligsameie", "Garasjelag",
             "Garasjesameie", "SA", "AS"].map String.data }

def swedenRules : AffixRules :=
  { pres := ["Bostadsrättsföreningen", "BRF", "Brf", "HSB Bostadsrättsförening",
             "Riksbyggen Bostadsrättsförening", "Riksbyggens Bostadsrättsförening",
             "Anläggningssamfälligheten"].map String.data
    sufs := ["Samfällighetsförening", "Bostadsrättsförening", "Samfällighet",
             "i Stockholm", "i Göteborg", "i Uppsala"].map String.data }

def denmarkRules : AffixRules :=
  { pres := ["Andelsboligforening", "A/B", "Ejerforening", "E/F"].map String.data
    sufs := ["Andelsboligforening", "Ejerforening"].map String.data }

/-- Lookup `HOUSING_PATTERNS[country] || HOUSING_PATTERNS.Norway`. -/
def housingFor (country : List Char) : AffixRules :=
  if country = "Norway".data then norwayRules
  else if country = "Sweden".data then swedenRules
  else if country = "Denmark".data then denmarkRules
  else norwayRules

/-- Embedding of `normalizeName` from scripts/sync-hubspot.ts: trim, strip
country prefixes then suffixes, strip the fixed noise patterns in source
order, remove punctuation, collapse whitespace, trim. -/
def normalizeName (name country : List Char) : List Char :=
  let r := housingFor country
  let n0 := trimWs name
  let n1 := r.pres.foldl (fun s p => stripHeadAffix p s) n0
  let n2 := r.sufs.foldl (fun s p => stripTailAffix p s) n1
  let n3 := chopFrom canRoman n2
  let n4 := chopFrom canVendor n3
  let n5 := chopFrom canDashAll n4
  let n6 := chopFrom canAL n5
  let n7 := chopFrom canFell n6
  let n8 := chopFrom canCity n7
  let n9 := n8.filter (fun c => !(isPunct c))
  trimWs (collapseWs n9)

/-- Stopword table of `extractTokens`. -/
def stopwords : List (List Char) :=
  ["i", "och", "og", "nr", "number", "ved", "på", "av", "til", "for", "all",
   "a/l", "al", "as", "sa", "sameiet", "borettslaget", "boligsameiet",
   "boligsameie", "borettslag", "sameie", "garasjelag", "garasjesameie",
   "brf", "bostadsrättsföreningen"].map String.data

/-- Delimiter class `[\s\-\/\(\)]` of the token split. -/
def isSplitDelim (c : Char) : Bool :=
  isWS c || c == '-' || c == '/' || c == '(' || c == ')'

/-- Splitting on runs of delimiters (segments may be empty; empty segments
are discarded by the length filter exactly as in the source). -/
def splitDelims : List Char → List (List Char)
  | [] => [[]]
  | c :: cs =>
    match splitDelims cs with
    | [] => [[]]
    | t :: ts => if isSplitDelim c then [] :: t :: ts else (c :: t) :: ts

/-- Embedding of `extractTokens` from scripts/sync-hubspot.ts. -/
def extractTokens (name : List Char) : List (List Char) :=
  (((splitDelims (name.map lowerChar)).filter
      (fun t => 2 < t.length)).filter
      (fun t => !(stopwords.contains t))).take 4

/-!
Similarity scorer.  The source computes a Levenshtein distance with a
single-row dynamic programme over `costs[0..longer.length]` (outer loop over
the shorter string, inner loop over the longer one) and returns
`(longer.length - costs[longer.length]) / longer.length`.  The row update is
embedded as `rowGo`/`rowStep`, the whole table as `dpCosts`; the reference
recursive Levenshtein distance `lev` is used to specify it.
-/

/-- Reference recursive Levenshtein distance on character lists. -/
def lev : List Char → List Char → Nat
  | [], ys => ys.length
  | x :: xs, [] => (x :: xs).length
  | x :: xs, y :: ys =>
    if x = y then lev xs ys
    else Nat.min (Nat.min (lev xs ys) (lev (x :: xs) ys)) (lev xs (y :: ys)) + 1
termination_by xs ys => xs.length + ys.length
decreasing_by all_goals simp_arith

/-- One pass of the inner loop of `similarity`: given the character `c` of
the shorter string being processed, the remaining characters `ys` of the
longer string, the diagonal value, the value to the left in the new row, and
the rest of the previous row, produce the rest of the new row.  The
`min (min diag left) above + 1` shape mirrors
`Math.min(Math.min(newValue, lastValue), costs[j]) + 1` in the source. -/
def rowGo (c : Char) : List Char → Nat → Nat → List Nat → List Nat
  | [], _, _, _ => []
  | _ :: _, _, _, [] => []
  | y :: ys, diag, left, above :: rest =>
    let v := if c = y then diag else Nat.min (Nat.min diag left) above + 1
    v :: rowGo c ys above v rest

/-- One iteration of the outer loop of `similarity`: previous cost row to new
cost row (the new row starts with `previous head + 1`, as `lastValue = i`). -/
def rowStep (c : Char) (lg : List Char) (prev : List Nat) : List Nat :=
  (prev.headD 0 + 1) :: rowGo c lg (prev.headD 0) (prev.headD 0 + 1) prev.tail

/-- Final cost row of the dynamic programme of `similarity` (row 0 is
`costs[j] = j`). -/
def dpCosts (sh lg : List Char) : List Nat :=
  sh.foldl (fun prev c => rowStep c lg prev) (List.range (lg.length + 1))

/-- Value `costs[longer.length]` returned by the loop in `similarity`. -/
def dpDist (sh lg : List Char) : Nat := (dpCosts sh lg).getLastD 0

/-- Embedding of `similarity` from scripts/sync-hubspot.ts. -/
def similarity (a b : List Char) : ℚ :=
  let longer := if b.length < a.length then a else b
  let shorter := if b.length < a.length then b else a
  if longer.length = 0 then 1
  else ((longer.length : ℚ) - (dpDist shorter longer : ℚ)) / (longer.length : ℚ)

/-- Column values of the dynamic programme: the list
`[lev rp (y1 :: rpref), lev rp (y2 :: y1 :: rpref), ...]` for the remaining
longer-string characters `ys` after the reversed prefix `rpref`. -/
def cols (rp : List Char) : List Char → List Char → List Nat
  | _, [] => []
  | rpref, y :: ys => lev rp (y :: rpref) :: cols rp (y :: rpref) ys

/-- Row of the dynamic programme reached after processing the (reversed)
shorter-string prefix `rp`. -/
def rowFor (rp lg : List Char) : List Nat := lev rp [] :: cols rp [] lg

/-!
CRM model: the candidate matcher of scripts/sync-hubspot.ts issues searches
against the HubSpot company-search API.  The API is modelled as a function
from a query (filter operator, filter value, result limit) to either a
transient failure (an exception, `Except.error`) or a search result.
Optional JavaScript fields are `Option`s; JavaScript truthiness of a string
field (`undefined` and `""` are falsy) is `strTruthy`.
-/

/-- Facility record handled by the sync script (rows returned by
`asset_map_get_facilities_for_sync`). -/
structure Facility where
  id : Nat
  name : List Char
  country : List Char
  address : Option (List Char)
  city : Option (List Char)
  postal_code : Option (List Char)
  hubspot_id : Option (List Char)
deriving DecidableEq

/-- HubSpot company record (`id` plus the requested properties). -/
structure Company where
  id : List Char
  name : Option (List Char)
  address : Option (List Char)
  city : Option (List Char)
  zip : Option (List Char)
  country : Option (List Char)
deriving DecidableEq

inductive SearchOp
  | eq
  | containsToken
deriving DecidableEq

structure SearchQuery where
  op : SearchOp
  value : List Char
  limit : Nat
deriving DecidableEq

/-- Response of the company-search API (`total` and `results` are optional
in the client types; `result.total || 0` and `results || []` appear in the
source). -/
structure SearchResult where
  total : Option Nat
  results : Option (List Company)
deriving DecidableEq

inductive MatchType
  | exact
  | normalized
  | token
  | fuzzy
  | none
deriving DecidableEq

structure MatchResult where
  facility : Facility
  company : Option Company
  matchType : MatchType
  confidence : ℚ
deriving DecidableEq

/-- JavaScript truthiness of an optional string. -/
def strTruthy (a : Option (List Char)) : Bool :=
  match a with
  | some s => !s.isEmpty
  | Option.none => false

/-- JavaScript `result.total || 0`. -/
def totalOrZero (r : SearchResult) : Nat := r.total.getD 0

/-- JavaScript `s.split(" ")[0]`. -/
def firstSpaceSeg (s : List Char) : List Char := s.takeWhile (fun c => !(c == ' '))

/-- Exact-tier query: name equals the raw facility name, limit 5. -/
def exactQuery (f : Facility) : SearchQuery := ⟨SearchOp.eq, f.name, 5⟩

/-- Normalized-tier query: name contains the first token of the canonical
name, limit 20. -/
def normalizedQuery (nn : List Char) : SearchQuery :=
  ⟨SearchOp.containsToken, firstSpaceSeg nn, 20⟩

/-- Token-tier query: name contains the token, limit 50. -/
def tokenQuery (t : List Char) : SearchQuery := ⟨SearchOp.containsToken, t, 50⟩

/-- Case-sensitive "p is a leading segment of s" test. -/
def startsWithL : List Char → List Char → Bool
  | [], _ => true
  | _ :: _, [] => false
  | p :: ps, c :: cs => (p == c) && startsWithL ps cs

/-- JavaScript `big.includes(small)` on strings. -/
def containsSub (small : List Char) : List Char → Bool
  | [] => startsWithL small []
  | c :: cs => startsWithL small (c :: cs) || containsSub small cs

/-- Normalized-tier candidate scan: the first candidate whose normalized
name has similarity above 0.65 to the facility's canonical name and that has
a truthy address is accepted with that similarity. -/
def normalizedScan (country nn : List Char) : List Company → Option (Company × ℚ)
  | [] => Option.none
  | c :: cs =>
    let cn := normalizeName (c.name.getD []) country
    let sim := similarity (nn.map lowerChar) (cn.map lowerChar)
    if (0.65 : ℚ) < sim ∧ strTruthy c.address then some (c, sim)
    else normalizedScan country nn cs

/-- Combined token-tier score of one candidate:
`0.4 * tokenOverlapRatio + 0.6 * nameSimilarity`. -/
def scoreCompany (country nn : List Char) (tokens : List (List Char))
    (c : Company) : ℚ :=
  let cn := normalizeName (c.name.getD []) country
  let ctoks := extractTokens cn
  let overlap := (tokens.filter (fun t => ctoks.any (fun ct =>
      containsSub t ct || containsSub ct t || decide ((0.8 : ℚ) < similarity t ct)))).length
  let tokenScore : ℚ := (overlap : ℚ) / (Nat.max tokens.length 1 : ℚ)
  let nameScore := similarity (nn.map lowerChar) (cn.map lowerChar)
  tokenScore * (0.4 : ℚ) + nameScore * (0.6 : ℚ)

/-- Token-tier best-candidate fold: candidates without a truthy address are
skipped; a candidate replaces the best when its combined score exceeds both
the current best and the 0.55 threshold. -/
def tokenScan (country nn : List Char) (tokens : List (List Char)) :
    List Company → Option Company × ℚ → Option Company × ℚ
  | [], best => best
  | c :: cs, (bm, bs) =>
    if !(strTruthy c.address) then tokenScan country nn tokens cs (bm, bs)
    else
      let score := scoreCompany country nn tokens c
      if bs < score ∧ (0.55 : ℚ) < score then
        tokenScan country nn tokens cs (some c, score)
      else tokenScan country nn tokens cs (bm, bs)

/-- Embedding of the token-search loop of `searchHubSpotCompany`: each token
is searched in order; the kept result is replaced when none is kept yet or
the new result's total is under 100, and the loop stops early exactly when a
total is under 100.  An error from any search aborts the whole tier. -/
def tokenSearchLoop (crm : SearchQuery → Except Unit SearchResult) :
    List (List Char) → Option SearchResult → Except Unit (Option SearchResult)
  | [], acc => .ok acc
  | t :: ts, acc =>
    match crm (tokenQuery t) with
    | .error e => .error e
    | .ok r =>
      let acc2 := if acc.isNone || decide (totalOrZero r < 100) then some r else acc
      if totalOrZero r < 100 then .ok acc2 else tokenSearchLoop crm ts acc2

/-- Embedding of `searchHubSpotCompany` from scripts/sync-hubspot.ts: exact
tier, then normalized tier (skipped when the canonical name equals the raw
name), then token tier (skipped when no tokens), else "none" with
confidence 0.  Each tier's API failure is caught and treated as "tier found
nothing". -/
def searchHubSpotCompany (crm : SearchQuery → Except Unit SearchResult)
    (f : Facility) : MatchResult :=
  let nn := normalizeName f.name f.country
  let tokens := extractTokens nn
  let exactRes : Option MatchResult :=
    match crm (exactQuery f) with
    | .error _ => Option.none
    | .ok r =>
      match r.results with
      | some (m :: _) =>
        if strTruthy m.address then some ⟨f, some m, MatchType.exact, 1⟩
        else Option.none
      | _ => Option.none
  match exactRes with
  | some res => res
  | Option.none =>
    let normRes : Option MatchResult :=
      if nn ≠ f.name then
        match crm (normalizedQuery nn) with
        | .error _ => Option.none
        | .ok r =>
          match normalizedScan f.country nn (r.results.getD []) with
          | some (c, sim) => some ⟨f, some c, MatchType.normalized, sim⟩
          | Option.none => Option.none
      else Option.none
    match normRes with
    | some res => res
    | Option.none =>
      let tokRes : Option MatchResult :=
        if tokens ≠ [] then
          match tokenSearchLoop crm tokens Option.none with
          | .error _ => Option.none
          | .ok acc =>
            let rs := (acc.map (fun r => r.results.getD [])).getD []
            match tokenScan f.country nn tokens rs (Option.none, 0) with
            | (some c, bs) => some ⟨f, some c, MatchType.token, bs⟩
            | (Option.none, _) => Option.none
        else Option.none
      match tokRes with
      | some res => res
      | Option.none => ⟨f, Option.none, MatchType.none, 0⟩

/-!
Persistence layer: the `asset_map.facilities` table and the RPC functions of
the Supabase migrations.  A database is a list of rows; an `UPDATE ... WHERE
id = p_facility_id` maps the row-level effect over the rows with matching
id.  `ORDER BY` clauses of the backlog queries are abstracted (the claims
concern membership); `LIMIT p_limit` is `take`.
-/

/-- Row of `asset_map.facilities` (the columns relevant to the pipeline;
`geocode_status` is constrained by the schema to
pending/success/failed/manual). -/
structure FacilityRow where
  id : Nat
  name : List Char
  country : List Char
  address : Option (List Char)
  city : Option (List Char)
  postal_code : Option (List Char)
  hubspot_id : Option (List Char)
  latitude : Option ℚ
  longitude : Option ℚ
  geocode_status : List Char
  geocode_confidence : Option ℚ
  updated_at : Nat
deriving DecidableEq

/-- SQL `COALESCE(p, column)`. -/
def coalesceQ (p old : Option ℚ) : Option ℚ :=
  match p with
  | some v => some v
  | Option.none => old

/-- Row-level effect of `asset_map_update_facility_geocode` in its final
form (migration `fix_geocode_rpc_null`, src/unnamed/part_004): coordinates
are `COALESCE`d with the stored values, status and confidence are
overwritten. -/
def applyGeocodeUpdate (pLat pLon : Option ℚ) (pStatus : List Char)
    (pConf : Option ℚ) (now : Nat) (r : FacilityRow) : FacilityRow :=
  { r with latitude := coalesceQ pLat r.latitude,
           longitude := coalesceQ pLon r.longitude,
           geocode_status := pStatus,
           geocode_confidence := pConf,
           updated_at := now }

/-- Embedding of the RPC `asset_map_update_facility_geocode`. -/
def asset_map_update_facility_geocode (pid : Nat) (pLat pLon : Option ℚ)
    (pStatus : List Char) (pConf : Option ℚ) (now : Nat)
    (db : List FacilityRow) : List FacilityRow :=
  db.map (fun r =>
    if r.id = pid then applyGeocodeUpdate pLat pLon pStatus pConf now r else r)

/-- Row-level effect of `asset_map_update_facility_from_hubspot`
(migration add_hubspot_sync_rpc): hubspot_id, address, city, postal_code and
updated_at are overwritten, nothing else. -/
def applyHubspotUpdate (pHub pAddr pCity pPostal : Option (List Char))
    (now : Nat) (r : FacilityRow) : FacilityRow :=
  { r with hubspot_id := pHub,
           address := pAddr,
           city := pCity,
           postal_code := pPostal,
           updated_at := now }

/-- Embedding of the RPC `asset_map_update_facility_from_hubspot`. -/
def asset_map_update_facility_from_hubspot (pid : Nat)
    (pHub pAddr pCity pPostal : Option (List Char)) (now : Nat)
    (db : List FacilityRow) : List FacilityRow :=
  db.map (fun r =>
    if r.id = pid then applyHubspotUpdate pHub pAddr pCity pPostal now r else r)

/-- SQL `(p_country IS NULL OR f.country = p_country)`. -/
def countryMatches (pCountry : Option (List Char)) (c : List Char) : Bool :=
  match pCountry with
  | Option.none => true
  | some pc => c == pc

/-- WHERE clause of `asset_map_get_facilities_for_geocoding`:
`address IS NOT NULL AND latitude IS NULL` plus the country filter.  The
clause does not mention `geocode_status`. -/
def geocodeBacklogPred (pCountry : Option (List Char)) (r : FacilityRow) : Bool :=
  r.address.isSome && r.latitude.isNone && countryMatches pCountry r.country

/-- Projection returned by `asset_map_get_facilities_for_geocoding`, the
script-side `FacilityToGeocode` (SQL NULL becomes the empty string on the
script side where the field is used in query concatenation). -/
structure GeoFacility where
  id : Nat
  name : List Char
  address : List Char
  city : List Char
  postal_code : List Char
  country : List Char
deriving DecidableEq

/-- Embedding of the RPC `asset_map_get_facilities_for_geocoding` (ORDER BY
country, name abstracted; LIMIT after the filter). -/
def asset_map_get_facilities_for_geocoding (pCountry : Option (List Char))
    (pLimit : Nat) (db : List FacilityRow) : List GeoFacility :=
  ((db.filter (geocodeBacklogPred pCountry)).take pLimit).map (fun r =>
    ⟨r.id, r.name, r.address.getD [], r.city.getD [], r.postal_code.getD [],
     r.country⟩)

/-- WHERE clause of `asset_map_get_facilities_for_sync`:
`address IS NULL AND hubspot_id IS NULL` plus the country filter. -/
def syncBacklogPred (pCountry : Option (List Char)) (r : FacilityRow) : Bool :=
  r.address.isNone && r.hubspot_id.isNone && countryMatches pCountry r.country

/-- Embedding of the RPC `asset_map_get_facilities_for_sync` (ORDER BY name
abstracted; LIMIT after the filter). -/
def asset_map_get_facilities_for_sync (pLimit : Nat)
    (pCountry : Option (List Char)) (db : List FacilityRow) : List Facility :=
  ((db.filter (syncBacklogPred pCountry)).take pLimit).map (fun r =>
    ⟨r.id, r.name, r.country, r.address, r.city, r.postal_code, r.hubspot_id⟩)

/-!
Geocoding router: the batch geocoding script.  Kartverket and HERE are
modelled as functions from the free-text query string to `Option` of the
parsed response (`Option.none` stands for a non-OK HTTP status or a thrown
exception, both of which the source catches and turns into `null`).
-/

/-- Kartverket address candidate (the used fields). -/
structure KartAddr where
  lat : ℚ
  lon : ℚ
  adressetekst : List Char
  postnummer : List Char
  poststed : List Char
deriving DecidableEq

structure KartResp where
  adresser : List KartAddr
deriving DecidableEq

/-- HERE geocoding item (the used fields; `queryScore` is optional,
`best.scoring?.queryScore || 0.7`). -/
structure HereItem where
  lat : ℚ
  lng : ℚ
  queryScore : Option ℚ
  label : List Char
deriving DecidableEq

structure HereResp where
  items : List HereItem
deriving DecidableEq

structure GeocodeResult where
  latitude : ℚ
  longitude : ℚ
  confidence : ℚ
  provider : List Char
deriving DecidableEq

/-- Primary Kartverket query: `` `${address} ${postal_code}`.trim() ``. -/
def kartverketPrimaryQuery (f : GeoFacility) : List Char :=
  trimWs (f.address ++ (' ' :: f.postal_code))

/-- Fallback Kartverket query: `` `${address} ${city}` ``. -/
def kartverketFallbackQuery (f : GeoFacility) : List Char :=
  f.address ++ (' ' :: f.city)

/-- Embedding of `geocodeKartverket`: primary query; when candidates exist
take the first with confidence 0.95 on postal-code match else 0.75; on zero
candidates retry once with the looser address+city query for confidence
0.60; otherwise no result.  The second component records the queries
issued. -/
def geocodeKartverket (oracle : List Char → Option KartResp) (f : GeoFacility) :
    Option GeocodeResult × List (List Char) :=
  let q1 := kartverketPrimaryQuery f
  match oracle q1 with
  | Option.none => (Option.none, [q1])
  | some d =>
    match d.adresser with
    | best :: _ =>
      (some { latitude := best.lat, longitude := best.lon,
              confidence :=
                if best.postnummer == f.postal_code then (0.95 : ℚ) else (0.75 : ℚ),
              provider := "kartverket".data }, [q1])
    | [] =>
      let q2 := kartverketFallbackQuery f
      match oracle q2 with
      | Option.none => (Option.none, [q1, q2])
      | some d2 =>
        match d2.adresser with
        | b :: _ =>
          (some { latitude := b.lat, longitude := b.lon, confidence := (0.6 : ℚ),
                  provider := "kartverket".data }, [q1, q2])
        | [] => (Option.none, [q1, q2])

/-- JavaScript `x || 0.7` for the HERE relevance score. -/
def scoreOrDefault (q : Option ℚ) : ℚ :=
  match q with
  | some v => if v = 0 then (0.7 : ℚ) else v
  | Option.none => (0.7 : ℚ)

/-- HERE query: `[address, postal_code, city, country].filter(Boolean).join(", ")`. -/
def hereQuery (f : GeoFacility) : List Char :=
  List.intercalate ", ".data
    ([f.address, f.postal_code, f.city, f.country].filter (fun s => !s.isEmpty))

/-- Embedding of `geocodeHere`: without a configured credential the function
returns `null` immediately (no request); otherwise the top-ranked item with
the service relevance score, defaulting to 0.7. -/
def geocodeHere (hereKey : Option (List Char))
    (oracle : List Char → Option HereResp) (f : GeoFacility) :
    Option GeocodeResult :=
  match hereKey with
  | Option.none => Option.none
  | some _ =>
    match oracle (hereQuery f) with
    | Option.none => Option.none
    | some d =>
      match d.items with
      | best :: _ =>
        some { latitude := best.lat, longitude := best.lng,
               confidence := scoreOrDefault best.queryScore,
               provider := "here".data }
      | [] => Option.none

/-- Embedding of `geocodeFacility`: Norway dispatches to Kartverket, every
other country to HERE. -/
def geocodeFacility (hereKey : Option (List Char))
    (kOracle : List Char → Option KartResp)
    (hOracle : List Char → Option HereResp) (f : GeoFacility) :
    Option GeocodeResult :=
  if f.country == "Norway".data then (geocodeKartverket kOracle f).1
  else geocodeHere hereKey hOracle f

/-!
Orchestrators.  Persistence writes can fail (the RPC helper throws on a
non-2xx response); a write-failure oracle `wFail` indexed by facility id
models this.  In the sync script the whole per-record body is inside
`try/catch`; in the geocoding script the per-record body has no handler, so
a throwing write propagates out of the loop, which is modelled by the
`Except` result of `geocodeBatch`.
-/

/-- Counters of the sync run (`stats` in `syncHubSpotAddresses`; the
per-tier and per-country breakdowns are not modelled). -/
structure SyncStats where
  processed : Nat
  matched : Nat
  updated : Nat
  failed : Nat
deriving DecidableEq

/-- JavaScript `x || null` on an optional string (empty becomes null). -/
def orNull (a : Option (List Char)) : Option (List Char) :=
  if strTruthy a then a else Option.none

/-- Per-record loop of `syncHubSpotAddresses`: count the record, search, and
on a match persist through `asset_map_update_facility_from_hubspot` unless
dry-run; a throwing write is caught, counted as failed, and the loop
continues with the next record. -/
def syncProcessBatch (crm : SearchQuery → Except Unit SearchResult)
    (wFail : Nat → Bool) (dryRun : Bool) (now : Nat) :
    List Facility → SyncStats × List FacilityRow → SyncStats × List FacilityRow
  | [], acc => acc
  | f :: fs, (st, db) =>
    let st1 : SyncStats := { st with processed := st.processed + 1 }
    let res := searchHubSpotCompany crm f
    let next : SyncStats × List FacilityRow :=
      match res.company with
      | some c =>
        let stM : SyncStats := { st1 with matched := st1.matched + 1 }
        if dryRun then (stM, db)
        else if wFail f.id then ({ stM with failed := stM.failed + 1 }, db)
        else ({ stM with updated := stM.updated + 1 },
              asset_map_update_facility_from_hubspot f.id (some c.id)
                (orNull c.address) (orNull c.city) (orNull c.zip) now db)
      | Option.none => (st1, db)
    syncProcessBatch crm wFail dryRun now fs next

inductive ConfigError
  | missingEnv
deriving DecidableEq

/-- Environment of the sync script. -/
structure SyncEnv where
  hubspotKey : Option (List Char)
  supabaseUrl : Option (List Char)
  supabaseKey : Option (List Char)

/-- CLI options of the sync script. -/
structure SyncOptions where
  dryRun : Bool
  limit : Option Nat
  country : Option (List Char)
  verbose : Bool

/-- JavaScript `options.limit || 5000`. -/
def limitOrDefault (l : Option Nat) : Nat :=
  match l with
  | some n => if n = 0 then 5000 else n
  | Option.none => 5000

/-- Embedding of `syncHubSpotAddresses`: a missing HUBSPOT/SUPABASE
credential aborts (process.exit(1)) before the backlog is fetched; otherwise
the backlog is fetched and processed. -/
def syncMainRun (env : SyncEnv) (crm : SearchQuery → Except Unit SearchResult)
    (wFail : Nat → Bool) (o : SyncOptions) (now : Nat)
    (db : List FacilityRow) : Except ConfigError (SyncStats × List FacilityRow) :=
  if env.hubspotKey.isNone || env.supabaseUrl.isNone || env.supabaseKey.isNone then
    .error ConfigError.missingEnv
  else
    let facs := asset_map_get_facilities_for_sync (limitOrDefault o.limit)
      o.country db
    .ok (syncProcessBatch crm wFail o.dryRun now facs (⟨0, 0, 0, 0⟩, db))

/-- Per-record loop of the geocoding script's `main`: geocode, then persist
success through `asset_map_update_facility_geocode` or failure through
`markFacilityFailed` (the same RPC with null coordinates and status
"failed").  There is no per-record exception handler: a throwing write
aborts the whole run (`Except.error`). -/
def geocodeBatch (hereKey : Option (List Char))
    (kOracle : List Char → Option KartResp)
    (hOracle : List Char → Option HereResp) (wFail : Nat → Bool)
    (dryRun : Bool) (now : Nat) :
    List GeoFacility → (Nat × Nat) × List FacilityRow →
      Except Unit ((Nat × Nat) × List FacilityRow)
  | [], acc => .ok acc
  | f :: fs, ((succ, fail), db) =>
    match geocodeFacility hereKey kOracle hOracle f with
    | some r =>
      if dryRun then
        geocodeBatch hereKey kOracle hOracle wFail dryRun now fs
          ((succ + 1, fail), db)
      else if wFail f.id then .error ()
      else
        geocodeBatch hereKey kOracle hOracle wFail dryRun now fs
          ((succ + 1, fail),
           asset_map_update_facility_geocode f.id (some r.latitude)
             (some r.longitude) "success".data (some r.confidence) now db)
    | Option.none =>
      if dryRun then
        geocodeBatch hereKey kOracle hOracle wFail dryRun now fs
          ((succ, fail + 1), db)
      else if wFail f.id then .error ()
      else
        geocodeBatch hereKey kOracle hOracle wFail dryRun now fs
          ((succ, fail + 1),
           asset_map_update_facility_geocode f.id Option.none Option.none
             "failed".data Option.none now db)

/-- Embedding of the geocoding script's `main`: a missing HERE credential
only produces a console warning (no abort); the backlog is fetched and the
batch is processed. -/
def geocodeMainRun (hereKey : Option (List Char))
    (kOracle : List Char → Option KartResp)
    (hOracle : List Char → Option HereResp) (wFail : Nat → Bool)
    (countryFilter : Option (List Char)) (limit : Nat) (dryRun : Bool)
    (now : Nat) (db : List FacilityRow) :
    Except Unit ((Nat × Nat) × List FacilityRow) :=
  let facs := asset_map_get_facilities_for_geocoding countryFilter limit db
  geocodeBatch hereKey kOracle hOracle wFail dryRun now facs ((0, 0), db)

/-!
Concrete fixtures used by the witnesses and counterexamples below.
-/

/-- Stored row with a pending geocode status and no coordinates. -/
def exRowPending : FacilityRow :=
  { id := 1, name := "Alvim Borettslag".data, country := "Norway".data,
    address := some "Storgata 5".data, city := some "Oslo".data,
    postal_code := some "0150".data, hubspot_id := Option.none,
    latitude := Option.none, longitude := Option.none,
    geocode_status := "pending".data, geocode_confidence := Option.none,
    updated_at := 0 }

/-- Stored row that already has coordinates and a success status. -/
def exRowCoords : FacilityRow :=
  { id := 2, name := "Oslo Garage".data, country := "Norway".data,
    address := some "Storgata 5".data, city := some "Oslo".data,
    postal_code := some "0150".data, hubspot_id := Option.none,
    latitude := some 59, longitude := some 10,
    geocode_status := "success".data, geocode_confidence := some (0.9 : ℚ),
    updated_at := 0 }

/-- Stored Swedish row in the geocoding backlog. -/
def exRowSweden : FacilityRow :=
  { id := 3, name := "Brf Eken".data, country := "Sweden".data,
    address := some "Storgatan 1".data, city := some "Lund".data,
    postal_code := some "22221".data, hubspot_id := Option.none,
    latitude := Option.none, longitude := Option.none,
    geocode_status := "pending".data, geocode_confidence := Option.none,
    updated_at := 0 }

/-- Two Swedish facilities as fetched for geocoding. -/
def gfacSe1 : GeoFacility :=
  { id := 3, name := "Brf Eken".data, address := "Storgatan 1".data,
    city := "Lund".data, postal_code := "22221".data, country := "Sweden".data }

def gfacSe2 : GeoFacility :=
  { id := 4, name := "Brf Linden".data, address := "Storgatan 2".data,
    city := "Lund".data, postal_code := "22221".data, country := "Sweden".data }

/-- Norwegian facility as fetched for geocoding. -/
def gfacNor : GeoFacility :=
  { id := 5, name := "Alvim Borettslag".data, address := "Kongens gate 1".data,
    city := "Oslo".data, postal_code := "0150".data, country := "Norway".data }

/-- Kartverket candidate returned by the fallback query in the witness. -/
def kartAddrEx : KartAddr :=
  { lat := 59, lon := 10, adressetekst := "Kongens gate 1".data,
    postnummer := "0150".data, poststed := "OSLO".data }

/-- Kartverket oracle: the primary query returns zero candidates, every
other query returns one candidate. -/
def kOracleFallback : List Char → Option KartResp :=
  fun q => if q == kartverketPrimaryQuery gfacNor then some ⟨[]⟩
           else some ⟨[kartAddrEx]⟩

/-- Oracle answering every query with no response (network failure). -/
def kOracleNone : List Char → Option KartResp := fun _ => Option.none

def hOracleNone : List Char → Option HereResp := fun _ => Option.none

/-- Facility whose raw name is already canonical ("Alvim" has no affixes). -/
def facAlvim : Facility :=
  { id := 10, name := "Alvim".data, country := "Norway".data,
    address := Option.none, city := Option.none, postal_code := Option.none,
    hubspot_id := Option.none }

/-- CRM company with the exact facility name but no address. -/
def cDupNoAddr : Company :=
  { id := "901".data, name := some "Alvim".data, address := Option.none,
    city := Option.none, zip := Option.none, country := some "Norway".data }

/-- CRM company with the exact facility name and a non-empty address. -/
def cWithAddr : Company :=
  { id := "902".data, name := some "Alvim".data,
    address := some "Storgata 5".data, city := some "Sarpsborg".data,
    zip := some "1712".data, country := some "Norway".data }

/-- CRM oracle for the exact-tier counterexample: the exact-name search
returns the address-less duplicate first; token searches return nothing. -/
def crmExactDup : SearchQuery → Except Unit SearchResult :=
  fun q => if q.op = SearchOp.eq then .ok ⟨some 2, some [cDupNoAddr, cWithAddr]⟩
           else .ok ⟨some 0, some []⟩

/-- CRM oracle answering every search with the single good candidate. -/
def crmAllGood : SearchQuery → Except Unit SearchResult :=
  fun _ => .ok ⟨some 1, some [cWithAddr]⟩

/-- CRM oracle failing every search. -/
def crmErrAll : SearchQuery → Except Unit SearchResult := fun _ => .error ()

/-- Facility with no extractable tokens and a canonical raw name. -/
def facShort : Facility :=
  { id := 11, name := "Ab".data, country := "Norway".data,
    address := Option.none, city := Option.none, postal_code := Option.none,
    hubspot_id := Option.none }

/-- First token-search response: total 150 (not under the 100 bound). -/
def rBig1 : SearchResult := ⟨some 150, some [cDupNoAddr]⟩

/-- Second token-search response: total 120 (not under the 100 bound). -/
def rBig2 : SearchResult := ⟨some 120, some [cWithAddr]⟩

/-- CRM oracle for the token-loop counterexample: token "aaaa" yields
`rBig1`, every other token yields `rBig2`; both totals are at least 100. -/
def crmTwoTokens : SearchQuery → Except Unit SearchResult :=
  fun q => if q.value == "aaaa".data then .ok rBig1 else .ok rBig2

/-- Token-search response with a total under the 100 bound. -/
def rSmall : SearchResult := ⟨some 5, some [cWithAddr]⟩

/-- CRM oracle whose token "aaaa" yields the large-total `rBig1` and every
other token the small-total `rSmall`: the loop passes over "aaaa" and stops
at the next token. -/
def crmBigThenSmall : SearchQuery → Except Unit SearchResult :=
  fun q => if q.value == "aaaa".data then .ok rBig1 else .ok rSmall

/-!
Proofs: the dynamic programme of `similarity` computes the Levenshtein
distance of the reversed strings, which is symmetric and zero on equal
strings.
-/

theorem lev_nil_right (xs : List Char) : lev xs [] = xs.length := by
  cases xs <;> simp [lev]

theorem lev_self (xs : List Char) : lev xs xs = 0 := by
  induction xs with
  | nil => simp [lev]
  | cons x xs ih => simp [lev, ih]

theorem lev_symm (xs : List Char) : ∀ ys, lev xs ys = lev ys xs := by
  induction xs with
  | nil => intro ys; simp [lev, lev_nil_right]
  | cons x xs ihx =>
    intro ys
    induction ys with
    | nil => simp [lev, lev_nil_right]
    | cons y ys ihy =>
      by_cases h : x = y
      · subst h
        simp only [lev, if_pos rfl]
        exact ihx ys
      · have h2 : ¬ y = x := fun e => h e.symm
        have h3 : ∀ a b c : Nat, Nat.min (Nat.min a b) c = Nat.min (Nat.min a c) b := by
          intro a b c
          simp only [Nat.min_def]
          repeat' split
          all_goals omega
        simp only [lev, if_neg h, if_neg h2]
        rw [ihx ys, ihx (y :: ys), ihy, h3]

theorem rowGo_spec (c : Char) (rp : List Char) :
    ∀ (ys rpref : List Char),
      rowGo c ys (lev rp rpref) (lev (c :: rp) rpref) (cols rp rpref ys) =
        cols (c :: rp) rpref ys := by
  intro ys
  induction ys with
  | nil => intro rpref; simp [rowGo, cols]
  | cons y ys ih =>
    intro rpref
    have hv : (if c = y then lev rp rpref
        else Nat.min (Nat.min (lev rp rpref) (lev (c :: rp) rpref))
          (lev rp (y :: rpref)) + 1) = lev (c :: rp) (y :: rpref) := by
      by_cases h : c = y <;> simp [lev, h]
    simp only [cols, rowGo]
    rw [hv]
    exact congrArg (lev (c :: rp) (y :: rpref) :: ·) (ih (y :: rpref))

theorem rowStep_rowFor (c : Char) (rp lg : List Char) :
    rowStep c lg (rowFor rp lg) = rowFor (c :: rp) lg := by
  have h1 : lev rp [] + 1 = lev (c :: rp) [] := by
    simp [lev_nil_right]
  simp only [rowStep, rowFor, List.headD_cons, List.tail_cons]
  rw [h1]
  exact congrArg (lev (c :: rp) [] :: ·) (rowGo_spec c rp lg [])

theorem cols_nil (ys : List Char) : ∀ rpref : List Char,
    cols [] rpref ys = (List.range ys.length).map (fun k => rpref.length + 1 + k) := by
  induction ys with
  | nil => intro rpref; simp [cols]
  | cons y ys ih =>
    intro rpref
    simp only [cols, List.length_cons, List.range_succ_eq_map, List.map_cons,
      List.map_map]
    refine congrArg₂ (· :: ·) ?_ ?_
    · simp [lev]
    · rw [ih (y :: rpref)]
      refine congrArg (List.map · (List.range ys.length)) ?_
      funext k
      simp [Function.comp]
      omega

theorem rowFor_nil (lg : List Char) : rowFor [] lg = List.range (lg.length + 1) := by
  rw [rowFor, cols_nil, List.range_succ_eq_map]
  refine congrArg₂ (· :: ·) ?_ ?_
  · simp [lev]
  · refine congrArg (List.map · (List.range lg.length)) ?_
    funext k
    simp
    omega

theorem dpCosts_eq (sh lg : List Char) : dpCosts sh lg = rowFor sh.reverse lg := by
  have main : ∀ (s rp : List Char),
      s.foldl (fun prev c => rowStep c lg prev) (rowFor rp lg) =
        rowFor (s.reverse ++ rp) lg := by
    intro s
    induction s with
    | nil => intro rp; simp
    | cons c s ih =>
      intro rp
      simp only [List.foldl_cons, rowStep_rowFor, List.reverse_cons]
      rw [ih (c :: rp)]
      congr 1
      simp
  rw [dpCosts, ← rowFor_nil]
  have h := main sh []
  rwa [List.append_nil] at h

theorem cols_getLastD (rp : List Char) : ∀ (ys rpref : List Char),
    (cols rp rpref ys).getLastD (lev rp rpref) = lev rp (ys.reverse ++ rpref) := by
  intro ys
  induction ys with
  | nil => intro rpref; simp [cols]
  | cons y ys ih =>
    intro rpref
    simp only [cols, List.getLastD_cons]
    rw [ih (y :: rpref)]
    congr 1
    simp

theorem dpDist_eq_lev (sh lg : List Char) : dpDist sh lg = lev sh.reverse lg.reverse := by
  rw [dpDist, dpCosts_eq, rowFor, List.getLastD_cons]
  have h := cols_getLastD sh.reverse lg []
  rwa [List.append_nil] at h

theorem dpDist_comm (a b : List Char) : dpDist a b = dpDist b a := by
  rw [dpDist_eq_lev, dpDist_eq_lev, lev_symm]

theorem dpDist_self (a : List Char) : dpDist a a = 0 := by
  rw [dpDist_eq_lev, lev_self]

/-- C9: for all strings a and b the similarity scorer is symmetric,
`similarity a b = similarity b a`, and reflexive, `similarity a a = 1`
(including the empty string, whose self-similarity is the 1.0 of the
zero-length branch). -/
theorem similarity_symm_and_refl :
    (∀ a b : List Char, similarity a b = similarity b a) ∧
    (∀ a : List Char, similarity a a = 1) := by
  constructor
  · intro a b
    by_cases h1 : b.length < a.length
    · have h2 : ¬ a.length < b.length := by omega
      simp only [similarity, if_pos h1, if_neg h2]
    · by_cases h3 : a.length < b.length
      · simp only [similarity, if_neg h1, if_pos h3]
      · have hlen : a.length = b.length := by omega
        simp only [similarity, if_neg h1, if_neg h3]
        rw [dpDist_comm, hlen]
  · intro a
    have h1 : ¬ a.length < a.length := lt_irrefl _
    simp only [similarity, if_neg h1]
    by_cases hz : a.length = 0
    · simp [hz]
    · have hq : (a.length : ℚ) ≠ 0 := by exact_mod_cast hz
      simp only [if_neg hz, dpDist_self]
      push_cast
      field_simp

/-- C2 counterexample: the name normalizer is not idempotent; for
`s = "Sameiet Sameiet Solsiden"` and country Norway a first pass strips one
"Sameiet" prefix (giving "Sameiet Solsiden") and a second pass strips
another (giving "Solsiden"). -/
theorem normalize_not_idempotent_cex :
    normalizeName (normalizeName "Sameiet Sameiet Solsiden".data "Norway".data)
        "Norway".data ≠
      normalizeName "Sameiet Sameiet Solsiden".data "Norway".data := by
  decide

/-- C2 amended: the normalizer is idempotent only on names that a single
pass already leaves unchanged; when `normalizeName s c = s`, a second
application is a no-op (in general a second pass can strip one more layer of
stacked affixes). -/
theorem normalizeName_idem_on_normalized (s c : List Char)
    (h : normalizeName s c = s) :
    normalizeName (normalizeName s c) c = normalizeName s c := by
  rw [h]
  exact h

theorem normalizeName_idem_on_normalized_witness :
    normalizeName "Solsiden".data "Norway".data = "Solsiden".data ∧
    normalizeName (normalizeName "Solsiden".data "Norway".data) "Norway".data =
      normalizeName "Solsiden".data "Norway".data :=
  ⟨by decide, normalizeName_idem_on_normalized "Solsiden".data "Norway".data (by decide)⟩

/-- C3 counterexample: the failure update of `asset_map_update_facility_geocode`
(the `fix_geocode_rpc_null` version, which `markFacilityFailed` invokes with
null coordinates) COALESCEs the coordinates with the stored values: applied
to a row whose latitude is 59, the row ends with status "failed" but its
latitude still 59, not null. -/
theorem geocode_failed_keeps_coordinates_cex :
    (applyGeocodeUpdate Option.none Option.none "failed".data Option.none 1
        exRowCoords).geocode_status = "failed".data ∧
    (applyGeocodeUpdate Option.none Option.none "failed".data Option.none 1
        exRowCoords).latitude ≠ (Option.none : Option ℚ) := by
  refine ⟨rfl, ?_⟩
  decide

/-- C3 amended: the failure update sets status "failed" and null confidence
but leaves both coordinates exactly as stored (hence null precisely for the
rows the geocoding backlog selects, whose latitude is null). -/
theorem markFailed_row_effects (r : FacilityRow) (now : Nat) :
    (applyGeocodeUpdate Option.none Option.none "failed".data Option.none now
        r).geocode_status = "failed".data ∧
    (applyGeocodeUpdate Option.none Option.none "failed".data Option.none now
        r).geocode_confidence = Option.none ∧
    (applyGeocodeUpdate Option.none Option.none "failed".data Option.none now
        r).latitude = r.latitude ∧
    (applyGeocodeUpdate Option.none Option.none "failed".data Option.none now
        r).longitude = r.longitude :=
  ⟨rfl, rfl, rfl, rfl⟩

/-- Geocode-relevant projection of a stored row. -/
def geoView (r : FacilityRow) : Option ℚ × Option ℚ × List Char × Option ℚ :=
  (r.latitude, r.longitude, r.geocode_status, r.geocode_confidence)

/-- C10: the matcher-stage persistence update
(`asset_map_update_facility_from_hubspot`) writes only hubspot_id, address,
city, postal_code and updated_at; the coordinates, geocode status and
geocode confidence of every row of the database are unchanged, and so are
the identity fields of the updated row. -/
theorem hubspot_update_frame (pid : Nat)
    (pHub pAddr pCity pPostal : Option (List Char)) (now : Nat)
    (db : List FacilityRow) (r : FacilityRow) :
    (asset_map_update_facility_from_hubspot pid pHub pAddr pCity pPostal now
        db).map geoView = db.map geoView ∧
    ((applyHubspotUpdate pHub pAddr pCity pPostal now r).latitude = r.latitude ∧
     (applyHubspotUpdate pHub pAddr pCity pPostal now r).longitude = r.longitude ∧
     (applyHubspotUpdate pHub pAddr pCity pPostal now r).geocode_status =
       r.geocode_status ∧
     (applyHubspotUpdate pHub pAddr pCity pPostal now r).geocode_confidence =
       r.geocode_confidence ∧
     (applyHubspotUpdate pHub pAddr pCity pPostal now r).id = r.id ∧
     (applyHubspotUpdate pHub pAddr pCity pPostal now r).name = r.name ∧
     (applyHubspotUpdate pHub pAddr pCity pPostal now r).country = r.country) ∧
    ((applyHubspotUpdate pHub pAddr pCity pPostal now r).hubspot_id = pHub ∧
     (applyHubspotUpdate pHub pAddr pCity pPostal now r).address = pAddr ∧
     (applyHubspotUpdate pHub pAddr pCity pPostal now r).city = pCity ∧
     (applyHubspotUpdate pHub pAddr pCity pPostal now r).postal_code = pPostal ∧
     (applyHubspotUpdate pHub pAddr pCity pPostal now r).updated_at = now) := by
  refine ⟨?_, ⟨rfl, rfl, rfl, rfl, rfl, rfl, rfl⟩, rfl, rfl, rfl, rfl, rfl⟩
  induction db with
  | nil => rfl
  | cons a l ih =>
    simp only [asset_map_update_facility_from_hubspot, List.map_cons] at ih ⊢
    rw [ih]
    by_cases h : a.id = pid <;> simp [h, geoView, applyHubspotUpdate]

/-- C1 counterexample: after the geocoding stage persists a failed status for
a pending backlog row (the `markFacilityFailed` call, null coordinates and
status "failed"), the row still satisfies the geocoding backlog query
`address IS NOT NULL AND latitude IS NULL`, so it IS returned on a
subsequent run without any reset. -/
theorem geocode_failed_reselected_cex :
    (asset_map_update_facility_geocode 1 Option.none Option.none "failed".data
        Option.none 1 [exRowPending]).map FacilityRow.geocode_status =
      ["failed".data] ∧
    (asset_map_get_facilities_for_geocoding Option.none 100
        (asset_map_update_facility_geocode 1 Option.none Option.none
          "failed".data Option.none 1 [exRowPending])).map GeoFacility.id =
      [1] := by
  refine ⟨?_, ?_⟩ <;> decide

/-- C1 amended: the geocoding stage does persist status "failed" for a
no-result facility, but the failure update leaves membership in the
geocoding backlog unchanged (the query filters only on address present and
latitude absent), and the matching stage persists nothing at all on a
no-match (the per-record step only increments the processed counter and
leaves the database untouched). -/
theorem failed_status_and_backlog (r : FacilityRow) (now : Nat)
    (pc : Option (List Char)) (crm : SearchQuery → Except Unit SearchResult)
    (wFail : Nat → Bool) (dry : Bool) (f : Facility) (fs : List Facility)
    (st : SyncStats) (db : List FacilityRow)
    (h : (searchHubSpotCompany crm f).company = Option.none) :
    (applyGeocodeUpdate Option.none Option.none "failed".data Option.none now
        r).geocode_status = "failed".data ∧
    geocodeBacklogPred pc (applyGeocodeUpdate Option.none Option.none
        "failed".data Option.none now r) = geocodeBacklogPred pc r ∧
    syncProcessBatch crm wFail dry now (f :: fs) (st, db) =
      syncProcessBatch crm wFail dry now fs
        ({ st with processed := st.processed + 1 }, db) := by
  refine ⟨rfl, rfl, ?_⟩
  simp only [syncProcessBatch, h]

theorem failed_status_and_backlog_witness :
    (applyGeocodeUpdate Option.none Option.none "failed".data Option.none 1
        exRowPending).geocode_status = "failed".data ∧
    geocodeBacklogPred Option.none (applyGeocodeUpdate Option.none Option.none
        "failed".data Option.none 1 exRowPending) =
      geocodeBacklogPred Option.none exRowPending ∧
    syncProcessBatch crmErrAll (fun _ => false) false 1 [facShort]
        (⟨0, 0, 0, 0⟩, []) =
      syncProcessBatch crmErrAll (fun _ => false) false 1 []
        (⟨0 + 1, 0, 0, 0⟩, []) :=
  failed_status_and_backlog exRowPending 1 Option.none crmErrAll
    (fun _ => false) false facShort [] ⟨0, 0, 0, 0⟩ [] (by decide)

/-- C4 counterexample: in the geocoding stage a persistence-write failure is
not caught per record: with two Swedish facilities in the batch and the
write for the first one failing, the whole run aborts with an error and the
second facility is never processed (the claim requires a failed-counter
increment and continuation for both stages). -/
theorem geocode_write_failure_aborts_cex :
    geocodeBatch Option.none kOracleNone hOracleNone (fun i => i == 3) false 1
      [gfacSe1, gfacSe2] ((0, 0), [exRowSweden]) = .error () := by
  rfl

/-- C4 amended: in the matching stage every record of the batch is processed
regardless of write failures (the per-record try/catch), and a failing write
for a matched record increments the failed counter and continues; in the
geocoding stage, however, a failing persistence write aborts the whole
remaining batch (there is no per-record handler). -/
theorem batch_error_handling :
    (∀ (crm : SearchQuery → Except Unit SearchResult) (wFail : Nat → Bool)
       (dry : Bool) (now : Nat) (facs : List Facility) (st : SyncStats)
       (db : List FacilityRow),
       ((syncProcessBatch crm wFail dry now facs (st, db)).1).processed =
         st.processed + facs.length) ∧
    (∀ (crm : SearchQuery → Except Unit SearchResult) (wFail : Nat → Bool)
       (now : Nat) (f : Facility) (fs : List Facility) (st : SyncStats)
       (db : List FacilityRow) (c : Company),
       (searchHubSpotCompany crm f).company = some c → wFail f.id = true →
       syncProcessBatch crm wFail false now (f :: fs) (st, db) =
         syncProcessBatch crm wFail false now fs
           ({ st with processed := st.processed + 1,
                      matched := st.matched + 1,
                      failed := st.failed + 1 }, db)) ∧
    (∀ (hereKey : Option (List Char)) (kOr : List Char → Option KartResp)
       (hOr : List Char → Option HereResp) (wFail : Nat → Bool) (now : Nat)
       (f : GeoFacility) (fs : List GeoFacility) (sf : Nat × Nat)
       (db : List FacilityRow),
       wFail f.id = true →
       geocodeBatch hereKey kOr hOr wFail false now (f :: fs) (sf, db) =
         .error ()) := by
  refine ⟨?_, ?_, ?_⟩
  · intro crm wFail dry now facs
    induction facs with
    | nil => intro st db; simp [syncProcessBatch]
    | cons f fs ih =>
      intro st db
      rcases hc : (searchHubSpotCompany crm f).company with _ | c
      · simp only [syncProcessBatch, hc]
        rw [ih]
        simp [Nat.add_comm, Nat.add_assoc, Nat.add_left_comm]
      · cases dry with
        | true =>
          simp only [syncProcessBatch, hc, if_true]
          rw [ih]
          simp [Nat.add_comm, Nat.add_assoc, Nat.add_left_comm]
        | false =>
          by_cases hw : wFail f.id <;>
            simp only [syncProcessBatch, hc, hw, if_true, if_false,
              Bool.false_eq_true, ite_false, ite_true] <;>
            rw [ih] <;>
            simp [Nat.add_comm, Nat.add_assoc, Nat.add_left_comm]
  · intro crm wFail now f fs st db c hc hw
    simp only [syncProcessBatch, hc, hw, Bool.false_eq_true, ite_false,
      ite_true]
  · intro hereKey kOr hOr wFail now f fs sf db hw
    rcases sf with ⟨s, fl⟩
    rcases hg : geocodeFacility hereKey kOr hOr f with _ | r <;>
      simp [geocodeBatch, hg, hw]

theorem batch_error_handling_witness :
    ((syncProcessBatch crmErrAll (fun _ => false) false 1 [facShort]
        (⟨0, 0, 0, 0⟩, [])).1).processed = 0 + 1 ∧
    syncProcessBatch crmAllGood (fun _ => true) false 1 [facAlvim]
        (⟨0, 0, 0, 0⟩, []) =
      syncProcessBatch crmAllGood (fun _ => true) false 1 []
        (⟨0 + 1, 0 + 1, 0, 0 + 1⟩, []) ∧
    geocodeBatch Option.none kOracleNone hOracleNone (fun _ => true) false 1
        [gfacSe1] ((0, 0), []) = .error () :=
  ⟨batch_error_handling.1 crmErrAll (fun _ => false) false 1 [facShort]
      ⟨0, 0, 0, 0⟩ [],
   batch_error_handling.2.1 crmAllGood (fun _ => true) 1 facAlvim []
      ⟨0, 0, 0, 0⟩ [] cWithAddr (by decide) rfl,
   batch_error_handling.2.2 Option.none kOracleNone hOracleNone
      (fun _ => true) 1 gfacSe1 [] (0, 0) [] rfl⟩

theorem geocodeBatch_ok (hereKey : Option (List Char))
    (kOr : List Char → Option KartResp) (hOr : List Char → Option HereResp)
    (dry : Bool) (now : Nat) :
    ∀ (facs : List GeoFacility) (acc : (Nat × Nat) × List FacilityRow),
      ∃ x, geocodeBatch hereKey kOr hOr (fun _ => false) dry now facs acc =
        .ok x := by
  intro facs
  induction facs with
  | nil => intro acc; exact ⟨acc, rfl⟩
  | cons f fs ih =>
    intro acc
    rcases acc with ⟨⟨s, fl⟩, db⟩
    rcases hg : geocodeFacility hereKey kOr hOr f with _ | r <;> cases dry <;>
      simp [geocodeBatch, hg, -Prod.exists] <;> exact ih _

/-- C7 counterexample: in the geocoding stage a missing HERE credential is
not fatal: with no HERE key configured and one Swedish backlog row, the run
proceeds, processes the record (no network call is made, the record gets no
result) and persists a failed status for it — it does not abort before any
record is processed. -/
theorem geocode_missing_key_not_fatal_cex :
    geocodeMainRun Option.none kOracleNone hOracleNone (fun _ => false)
        Option.none 100 false 1 [exRowSweden] =
      .ok ((0, 1),
        [applyGeocodeUpdate Option.none Option.none "failed".data Option.none 1
          exRowSweden]) ∧
    (applyGeocodeUpdate Option.none Option.none "failed".data Option.none 1
        exRowSweden).geocode_status = "failed".data := by
  exact ⟨rfl, rfl⟩

/-- C7 amended: a missing required credential aborts before any record is
processed only in the HubSpot matching stage (any of the three required
variables missing yields the configuration error before the backlog fetch);
in the geocoding stage a missing HERE credential merely produces a warning,
each commercial-path lookup returns no result without any request, and the
run itself completes normally. -/
theorem config_error_handling :
    (∀ (env : SyncEnv) (crm : SearchQuery → Except Unit SearchResult)
       (wFail : Nat → Bool) (o : SyncOptions) (now : Nat)
       (db : List FacilityRow),
       (env.hubspotKey = Option.none ∨ env.supabaseUrl = Option.none ∨
         env.supabaseKey = Option.none) →
       syncMainRun env crm wFail o now db = .error ConfigError.missingEnv) ∧
    (∀ (hOr : List Char → Option HereResp) (f : GeoFacility),
       geocodeHere Option.none hOr f = Option.none) ∧
    (∀ (kOr : List Char → Option KartResp) (hOr : List Char → Option HereResp)
       (pc : Option (List Char)) (lim : Nat) (dry : Bool) (now : Nat)
       (db : List FacilityRow),
       ∃ x, geocodeMainRun Option.none kOr hOr (fun _ => false) pc lim dry now
         db = .ok x) := by
  refine ⟨?_, ?_, ?_⟩
  · intro env crm wFail o now db h
    rcases h with h | h | h <;> simp [syncMainRun, h]
  · intro hOr f
    rfl
  · intro kOr hOr pc lim dry now db
    exact geocodeBatch_ok Option.none kOr hOr dry now _ _

theorem config_error_handling_witness :
    syncMainRun ⟨Option.none, some "u".data, some "k".data⟩ crmErrAll
        (fun _ => false) ⟨false, Option.none, Option.none, false⟩ 0 [] =
      .error ConfigError.missingEnv ∧
    geocodeHere Option.none hOracleNone gfacSe1 = Option.none ∧
    ∃ x, geocodeMainRun Option.none kOracleNone hOracleNone (fun _ => false)
      Option.none 100 false 1 [] = .ok x :=
  ⟨config_error_handling.1 ⟨Option.none, some "u".data, some "k".data⟩
      crmErrAll (fun _ => false) ⟨false, Option.none, Option.none, false⟩ 0 []
      (Or.inl rfl),
   config_error_handling.2.1 hOracleNone gfacSe1,
   config_error_handling.2.2 kOracleNone hOracleNone Option.none 100 false 1 []⟩

/-- C5 counterexample: the exact tier inspects only the first returned
result.  The exact-name search returns a same-named company without an
address first and the same-named company with an address second; the claim
requires tier "exact" with confidence 1.0, but the matcher falls through all
tiers and returns "none" with no company. -/
theorem exact_tier_skips_addressless_first_cex :
    crmExactDup (exactQuery facAlvim) =
      .ok ⟨some 2, some [cDupNoAddr, cWithAddr]⟩ ∧
    cWithAddr.name = some facAlvim.name ∧
    strTruthy cWithAddr.address = true ∧
    (searchHubSpotCompany crmExactDup facAlvim).matchType = MatchType.none ∧
    (searchHubSpotCompany crmExactDup facAlvim).company = Option.none := by
  refine ⟨rfl, rfl, rfl, ?_, ?_⟩ <;> decide

/-- C5 amended: whenever the first result of the exact-name search has a
non-empty address, the matcher returns tier "exact" with confidence 1.0 and
that first result, regardless of any other candidates present. -/
theorem exact_tier_first_result (crm : SearchQuery → Except Unit SearchResult)
    (f : Facility) (r : SearchResult) (m : Company) (rest : List Company)
    (h : crm (exactQuery f) = .ok r) (hres : r.results = some (m :: rest))
    (ha : strTruthy m.address = true) :
    searchHubSpotCompany crm f = ⟨f, some m, MatchType.exact, 1⟩ := by
  simp only [searchHubSpotCompany, h, hres, ha, if_true]

theorem exact_tier_first_result_witness :
    searchHubSpotCompany crmAllGood facAlvim =
      ⟨facAlvim, some cWithAddr, MatchType.exact, 1⟩ :=
  exact_tier_first_result crmAllGood facAlvim ⟨some 1, some [cWithAddr]⟩
    cWithAddr [] rfl rfl rfl

theorem tokenSearchLoop_keeps_acc (crm : SearchQuery → Except Unit SearchResult) :
    ∀ (ts : List (List Char)) (r : SearchResult),
      (∀ u ∈ ts, ∃ q, crm (tokenQuery u) = .ok q ∧ 100 ≤ totalOrZero q) →
      tokenSearchLoop crm ts (some r) = .ok (some r) := by
  intro ts
  induction ts with
  | nil => intro r _; rfl
  | cons u ts ih =>
    intro r hall
    obtain ⟨q, hq, hge⟩ := hall u (by simp)
    have hlt : ¬ totalOrZero q < 100 := by omega
    simp only [tokenSearchLoop, hq, Option.isNone_some, Bool.false_or,
      decide_eq_true_eq, hlt, if_false, ite_false,
      decide_eq_false hlt, Bool.or_false]
    exact ih r (fun v hv => hall v (List.mem_cons_of_mem u hv))

/-- C6 counterexample: when no token search returns a total under 100, the
candidate set kept is the FIRST token's result set, not the last attempted
token's.  With tokens "aaaa" (total 150) and "bbbb" (total 120) the loop
attempts both and keeps the results of "aaaa". -/
theorem token_loop_keeps_first_results_cex :
    tokenSearchLoop crmTwoTokens ["aaaa".data, "bbbb".data] Option.none =
      .ok (some rBig1) ∧
    rBig1 ≠ rBig2 := by
  refine ⟨rfl, ?_⟩
  decide

theorem tokenSearchLoop_stops_at_small (crm : SearchQuery → Except Unit SearchResult) :
    ∀ (pre : List (List Char)) (acc : Option SearchResult) (t : List Char)
      (ts : List (List Char)) (r : SearchResult),
      (∀ u ∈ pre, ∃ q, crm (tokenQuery u) = .ok q ∧ 100 ≤ totalOrZero q) →
      crm (tokenQuery t) = .ok r → totalOrZero r < 100 →
      tokenSearchLoop crm (pre ++ t :: ts) acc = .ok (some r) := by
  intro pre
  induction pre with
  | nil =>
    intro acc t ts r _ h hlt
    simp [tokenSearchLoop, h, hlt]
  | cons u pre ih =>
    intro acc t ts r hall h hlt
    obtain ⟨q, hq, hge⟩ := hall u (List.mem_cons_self u pre)
    have hqlt : ¬ totalOrZero q < 100 := by omega
    simp only [List.cons_append, tokenSearchLoop, hq,
      decide_eq_false hqlt, Bool.or_false, if_neg hqlt]
    exact ih _ t ts r (fun v hv => hall v (List.mem_cons_of_mem u hv)) h hlt

/-- C6 amended: the token tier searches each extracted token in order and
stops at the first search whose total is under 100 — whether it is the
first token or a later one reached after any number of searches with totals
of 100 or more — scoring that search's result set; when NO search returns a
total under 100, the set scored is the FIRST attempted token's result set
(kept because nothing was kept yet), not the last attempted token's. -/
theorem token_loop_pick (crm : SearchQuery → Except Unit SearchResult) :
    (∀ (pre : List (List Char)) (t : List Char) (ts : List (List Char))
        (r : SearchResult),
        (∀ u ∈ pre, ∃ q, crm (tokenQuery u) = .ok q ∧ 100 ≤ totalOrZero q) →
        crm (tokenQuery t) = .ok r → totalOrZero r < 100 →
        tokenSearchLoop crm (pre ++ t :: ts) Option.none = .ok (some r)) ∧
    (∀ (t : List Char) (ts : List (List Char)) (r : SearchResult),
        crm (tokenQuery t) = .ok r → 100 ≤ totalOrZero r →
        (∀ u ∈ ts, ∃ q, crm (tokenQuery u) = .ok q ∧ 100 ≤ totalOrZero q) →
        tokenSearchLoop crm (t :: ts) Option.none = .ok (some r)) := by
  constructor
  · intro pre t ts r hall h hlt
    exact tokenSearchLoop_stops_at_small crm pre Option.none t ts r hall h hlt
  · intro t ts r h hge hall
    have hlt : ¬ totalOrZero r < 100 := by omega
    simp only [tokenSearchLoop, h, Option.isNone_none, Bool.true_or,
      if_true, if_neg hlt]
    exact tokenSearchLoop_keeps_acc crm ts r hall

theorem token_loop_pick_witness :
    tokenSearchLoop crmExactDup ["zzzz".data] Option.none =
      .ok (some ⟨some 0, some []⟩) ∧
    tokenSearchLoop crmBigThenSmall ["aaaa".data, "cccc".data] Option.none =
      .ok (some rSmall) ∧
    tokenSearchLoop crmTwoTokens ["aaaa".data, "bbbb".data] Option.none =
      .ok (some rBig1) :=
  ⟨(token_loop_pick crmExactDup).1 [] "zzzz".data [] ⟨some 0, some []⟩
      (fun u hu => absurd hu (List.not_mem_nil u)) rfl (by decide),
   (token_loop_pick crmBigThenSmall).1 ["aaaa".data] "cccc".data [] rSmall
      (fun u hu => by
        simp only [List.mem_singleton] at hu
        subst hu
        exact ⟨rBig1, rfl, by decide⟩)
      rfl (by decide),
   (token_loop_pick crmTwoTokens).2 "aaaa".data ["bbbb".data] rBig1 rfl
      (by decide)
      (fun u hu => by
        simp only [List.mem_singleton] at hu
        subst hu
        exact ⟨rBig2, rfl, by decide⟩)⟩

/-- C8: on the Kartverket path the primary query is street address plus
postal code; when it returns candidates the first is taken with confidence
0.95 on postal-code match and 0.75 otherwise (and no second query is made);
when it returns zero candidates exactly one retry with the looser street
address plus city query is made, yielding confidence 0.60 when it returns a
candidate and no result otherwise. -/
theorem geocodeKartverket_spec (oracle : List Char → Option KartResp)
    (f : GeoFacility) :
    (∀ (d : KartResp) (best : KartAddr) (rest : List KartAddr),
        oracle (kartverketPrimaryQuery f) = some d →
        d.adresser = best :: rest →
        geocodeKartverket oracle f =
          (some { latitude := best.lat, longitude := best.lon,
                  confidence := if best.postnummer == f.postal_code
                    then (0.95 : ℚ) else (0.75 : ℚ),
                  provider := "kartverket".data },
           [kartverketPrimaryQuery f])) ∧
    (∀ d : KartResp, oracle (kartverketPrimaryQuery f) = some d →
        d.adresser = [] →
        ((geocodeKartverket oracle f).2 =
           [kartverketPrimaryQuery f, kartverketFallbackQuery f] ∧
         (∀ (d2 : KartResp) (b : KartAddr) (rest2 : List KartAddr),
            oracle (kartverketFallbackQuery f) = some d2 →
            d2.adresser = b :: rest2 →
            (geocodeKartverket oracle f).1 =
              some { latitude := b.lat, longitude := b.lon,
                     confidence := (0.6 : ℚ),
                     provider := "kartverket".data }) ∧
         (∀ d2 : KartResp, oracle (kartverketFallbackQuery f) = some d2 →
            d2.adresser = [] →
            (geocodeKartverket oracle f).1 = Option.none))) := by
  constructor
  · intro d best rest h1 h2
    simp [geocodeKartverket, h1, h2]
  · intro d h1 h2
    refine ⟨?_, ?_, ?_⟩
    · rcases h3 : oracle (kartverketFallbackQuery f) with _ | d2
      · simp [geocodeKartverket, h1, h2, h3]
      · rcases h4 : d2.adresser with _ | ⟨b, rest⟩ <;>
          simp [geocodeKartverket, h1, h2, h3, h4]
    · intro d2 b rest2 h3 h4
      simp [geocodeKartverket, h1, h2, h3, h4]
    · intro d2 h3 h4
      simp [geocodeKartverket, h1, h2, h3, h4]

theorem geocodeKartverket_spec_witness :
    (geocodeKartverket kOracleFallback gfacNor).2 =
      [kartverketPrimaryQuery gfacNor, kartverketFallbackQuery gfacNor] ∧
    (geocodeKartverket kOracleFallback gfacNor).1 =
      some { latitude := 59, longitude := 10, confidence := (0.6 : ℚ),
             provider := "kartverket".data } :=
  ⟨((geocodeKartverket_spec kOracleFallback gfacNor).2 ⟨[]⟩ (by decide) rfl).1,
   ((geocodeKartverket_spec kOracleFallback gfacNor).2 ⟨[]⟩ (by decide)
      rfl).2.1 ⟨[kartAddrEx]⟩ kartAddrEx [] (by decide) rfl⟩

end AssetMap
